import Mathlib

/-!
Verification development for an 8-ball pool game (pygame).

The development shallowly embeds the game's pure logic:
  * `functions.py`: ball creation, wall/cushion resolution, ball-ball
    velocity resolution, pocket detection, the aiming-line predictor;
  * `main.py`: the rack setup, the per-shot capture processing, the shot
    resolution (8-ball rules and turn transfer), and a transition system
    over reachable match states.

Coordinates and velocities are embedded as exact rationals where the source
performs field arithmetic and comparisons only; the two functions whose
control flow genuinely consumes square roots (`_collide_with_ball`'s
normalization and `draw_aiming_line`) are treated as explained at their
definitions.  Python floats are modelled as exact arithmetic throughout.
-/

set_option linter.unusedVariables false

/-- Ball classification, as assigned by `create_ball` in `functions.py`
(the source stores it as the string field `"type"`:
`"cue"`, `"8ball"`, `"solid"`, `"stripe"`). -/
inductive BType where
  | cue
  | eight
  | solid
  | stripe
deriving DecidableEq, Repr

/-- `create_ball`'s classification of a ball number (`functions.py` lines
43-55): 0 is the cue ball, 8 the 8-ball, 1-7 solids, the rest stripes. -/
def ballTypeOf (n : ℕ) : BType :=
  if n = 0 then BType.cue
  else if n = 8 then BType.eight
  else if n < 8 then BType.solid
  else BType.stripe

/-- The mutable ball record built by `create_ball` (`functions.py` lines
57-74), restricted to the fields the verified logic reads: position,
velocity, radius, number and the two physical coefficients.  The
rendering/interaction fields (`color`, `dragging`, `offset_*`, `prev_*`,
`nearby_balls`) and the derived `type` string (see `ballTypeOf`) are not
carried. -/
structure Ball (α : Type) where
  x : α
  y : α
  velX : α
  velY : α
  radius : α
  number : ℕ
  bounceFactor : α
  friction : α
deriving DecidableEq, Repr

/-- `BALL_RADIUS` from `functions.py`. -/
def BALL_RADIUS : ℚ := 20

/-- `POCKET_RADIUS` from `functions.py`. -/
def POCKET_RADIUS : ℚ := 35

/-- `CUSHION_BOUNCE` from `functions.py`: energy retained hitting a cushion. -/
def CUSHION_BOUNCE : ℚ := 3 / 4

/-- `create_ball x y number` (`functions.py` lines 39-74): fresh ball at
rest with radius 20, bounce factor 0.96 and felt friction 0.991. -/
def create_ball (x y : ℚ) (number : ℕ) : Ball ℚ :=
  { x := x, y := y, velX := 0, velY := 0, radius := BALL_RADIUS,
    number := number, bounceFactor := 24 / 25, friction := 991 / 1000 }

/-- Window/table constants from `main.py` (lines 13-26). -/
def WIDTH : ℤ := 1920
def TABLE_W : ℤ := 1500
def TABLE_H : ℤ := 750
def TABLE_X : ℤ := (WIDTH - TABLE_W) / 2
def TABLE_Y : ℤ := 250
def CUSHION_SIZE : ℤ := 60

/-- `get_pocket_positions` (`functions.py` lines 14-23); `//` in the source
is Python floor division on the (positive) table dimensions, `Int.fdiv`
here. -/
def get_pocket_positions (tx ty tw th cushion : ℤ) : List (ℤ × ℤ) :=
  [ (tx + cushion, ty + cushion),
    (tx + Int.fdiv tw 2, ty + cushion - 5),
    (tx + tw - cushion, ty + cushion),
    (tx + cushion, ty + th - cushion),
    (tx + Int.fdiv tw 2, ty + th - cushion + 5),
    (tx + tw - cushion, ty + th - cushion) ]

/-- A ball lies in a given pocket (`check_pockets`, `functions.py` lines
298-300).  The source compares `math.sqrt(dSq) < POCKET_RADIUS`; for
nonnegative reals this is equivalent to `dSq < POCKET_RADIUS ^ 2`, which is
what is embedded (it keeps the predicate exact over `ℚ`). -/
def inPocket (b : Ball ℚ) (p : ℤ × ℤ) : Bool :=
  decide ((b.x - (p.1 : ℚ)) ^ 2 + (b.y - (p.2 : ℚ)) ^ 2 < POCKET_RADIUS ^ 2)

/-- A ball is captured by some of the six pockets this frame
(`check_pockets`'s inner loop, `functions.py` lines 297-304). -/
def pocketCaptured (b : Ball ℚ) (tx ty tw th cushion : ℤ) : Bool :=
  (get_pocket_positions tx ty tw th cushion).any (inPocket b)

/-- The cue ball's automatic respawn performed inside `check_pockets`
(`functions.py` lines 307-310): fixed point, velocity zeroed in place. -/
def respawnCue (b : Ball ℚ) (tx ty tw th : ℤ) : Ball ℚ :=
  { b with x := ((tx + Int.fdiv tw 4 : ℤ) : ℚ),
           y := ((ty + Int.fdiv th 2 : ℤ) : ℚ),
           velX := 0, velY := 0 }

/-- `check_pockets` (`functions.py` lines 290-314).  Returns the surviving
ball list and the `(type, number)` data of every sunk ball, in ball order.
The source collects `balls_to_remove` and then mutates: captured cue balls
are respawned in place, captured object balls are removed; one traversal
that keeps uncaptured balls, respawns captured cues and drops captured
object balls produces the same list. -/
def check_pockets (balls : List (Ball ℚ)) (tx ty tw th cushion : ℤ) :
    List (Ball ℚ) × List (BType × ℕ) :=
  let sunkData := (balls.filter (fun b => pocketCaptured b tx ty tw th cushion)).map
    (fun b => (ballTypeOf b.number, b.number))
  let newBalls := balls.filterMap (fun b =>
    if pocketCaptured b tx ty tw th cushion then
      if b.number = 0 then some (respawnCue b tx ty tw th) else none
    else some b)
  (newBalls, sunkData)

/-- `_collide_with_walls` (`functions.py` lines 149-168): clamp each axis to
the inset playable bound and send the velocity component back into the
table at `CUSHION_BOUNCE` times its magnitude; the two axes are resolved by
independent `if/elif` chains. -/
def collide_with_walls (ball : Ball ℚ) (tx ty tw th cushion : ℚ) : Ball ℚ :=
  let left := tx + cushion + ball.radius
  let right := tx + tw - cushion - ball.radius
  let top := ty + cushion + ball.radius
  let bottom := ty + th - cushion - ball.radius
  let b1 :=
    if ball.x < left then
      { ball with x := left, velX := |ball.velX| * CUSHION_BOUNCE }
    else if ball.x > right then
      { ball with x := right, velX := -|ball.velX| * CUSHION_BOUNCE }
    else ball
  if b1.y < top then
    { b1 with y := top, velY := |b1.velY| * CUSHION_BOUNCE }
  else if b1.y > bottom then
    { b1 with y := bottom, velY := -|b1.velY| * CUSHION_BOUNCE }
  else b1

/-- Velocity resolution of `_collide_with_ball` (`functions.py` lines
170-208).  The source normalizes `n = δ / d` with `δ = (dx, dy)`,
`d = sqrt(distance_sq)` (or `0.001` when `distance_sq = 0`), projects the
relative velocity `v = rv · n`, returns when `v <= 0`, and otherwise applies
the impulse `v * (1 + bounce) * 0.5` along `n` to both balls.  Because
`impulse * nx = (rv · δ) * (1 + bounce) * dx / (2 * distance_sq)` (and
likewise for `ny`), the velocity update is exact rational arithmetic, and
`v > 0` is equivalent to `rv · δ > 0` (when `distance_sq = 0` the source's
`n` is the zero vector, `v = 0`, and it returns — also a velocity no-op).
The in-place positional overlap split (source lines 184-189), which does
consume the square root, only moves positions and never velocities; it is
not part of this velocity embedding. -/
def collide_with_ball_vel (ball neighbor : Ball ℚ) : Ball ℚ × Ball ℚ :=
  let dx := neighbor.x - ball.x
  let dy := neighbor.y - ball.y
  let distanceSq := dx * dx + dy * dy
  let sumRadii := ball.radius + neighbor.radius
  if sumRadii * sumRadii ≤ distanceSq then (ball, neighbor)
  else
    let rvx := ball.velX - neighbor.velX
    let rvy := ball.velY - neighbor.velY
    let velDotDelta := rvx * dx + rvy * dy
    if velDotDelta ≤ 0 then (ball, neighbor)
    else
      let bounce := ball.bounceFactor
      let impX := velDotDelta * (1 + bounce) * dx / (2 * distanceSq)
      let impY := velDotDelta * (1 + bounce) * dy / (2 * distanceSq)
      ({ ball with velX := ball.velX - impX, velY := ball.velY - impY },
       { neighbor with velX := neighbor.velX + impX, velY := neighbor.velY + impY })

/-- Centre offset `dx` between a collision pair (`functions.py` line 172). -/
def deltaX (b n : Ball ℚ) : ℚ := n.x - b.x

/-- Centre offset `dy` between a collision pair (`functions.py` line 173). -/
def deltaY (b n : Ball ℚ) : ℚ := n.y - b.y

/-- The source's `vel_along_normal` scaled by the (positive) centre
distance: the relative velocity dotted with the unnormalized offset `δ`. -/
def relVelDotDelta (b n : Ball ℚ) : ℚ :=
  (b.velX - n.velX) * deltaX b n + (b.velY - n.velY) * deltaY b n

/-- A ball's normal-direction speed scaled by the (positive) centre
distance of the pair `(b, n)`: its velocity dotted with `δ`. -/
def projDelta (v b n : Ball ℚ) : ℚ :=
  v.velX * deltaX b n + v.velY * deltaY b n

noncomputable section AimingLine

open scoped Classical

/-- Per-ball first-hit parameter of `draw_aiming_line`'s ball loop
(`functions.py` lines 422-442): skip the cue ball, require the target in
front of the ray (`proj > 0`) and the ray passing within `2r` of its
center, and return `t = proj - sqrt((2r)^2 - dist_sq)`. -/
def ballHitT (cueX cueY r ux uy : ℝ) (b : Ball ℝ) : Option ℝ :=
  if b.number = 0 then none
  else
    let wx := b.x - cueX
    let wy := b.y - cueY
    let proj := wx * ux + wy * uy
    if 0 < proj then
      let cx := cueX + ux * proj
      let cy := cueY + uy * proj
      let dSq := (b.x - cx) ^ 2 + (b.y - cy) ^ 2
      if dSq ≤ (2 * r) ^ 2 then some (proj - Real.sqrt ((2 * r) ^ 2 - dSq))
      else none
    else none

/-- The running minimum of `draw_aiming_line`'s ball loop: `min_t` starts
at infinity (`none`) and a candidate `t` replaces the accumulator exactly
when `0 < t < min_t` (`functions.py` lines 440-442). -/
def aimFold (cueX cueY r ux uy : ℝ) :
    List (Ball ℝ) → Option (ℝ × Ball ℝ) → Option (ℝ × Ball ℝ)
  | [], acc => acc
  | b :: rest, acc =>
    let acc' :=
      match ballHitT cueX cueY r ux uy b with
      | none => acc
      | some t =>
        match acc with
        | none => if 0 < t then some (t, b) else acc
        | some (tm, bm) => if 0 < t ∧ t < tm then some (t, b) else acc
    aimFold cueX cueY r ux uy rest acc'

/-- One axis of `draw_aiming_line`'s cushion distance (`functions.py` lines
453-457): the parametric distance to the bound the ray moves toward, or
infinity (`none`) when the axis component is zero. -/
def tWallAxis (pos u lo hi : ℝ) : Option ℝ :=
  if 0 < u then some ((hi - pos) / u)
  else if u < 0 then some ((lo - pos) / u)
  else none

/-- `min` of two parametric distances where `none` stands for the source's
`float('inf')` (`functions.py` line 459). -/
def optMin : Option ℝ → Option ℝ → Option ℝ
  | none, o => o
  | some a, none => some a
  | some a, some b => some (min a b)

/-- The first-impact selection of `draw_aiming_line` (`functions.py` lines
418-464) for a normalized aim direction `(ux, uy)`: fold the ball loop,
compute the cushion distance, and let the cushion override the struck ball
exactly when `t_wall < min_t` (source line 462).  Returns the reported
parametric distance and the reported struck ball (`none` = cushion). -/
def aimImpact (cue : Ball ℝ) (balls : List (Ball ℝ)) (ux uy : ℝ)
    (tx ty tw th cushion : ℝ) : Option ℝ × Option (Ball ℝ) :=
  let r := cue.radius
  let mb := aimFold cue.x cue.y r ux uy balls none
  let boundLeft := tx + cushion + r
  let boundRight := tx + tw - cushion - r
  let boundTop := ty + cushion + r
  let boundBottom := ty + th - cushion - r
  let wallT := optMin (tWallAxis cue.x ux boundLeft boundRight)
                      (tWallAxis cue.y uy boundTop boundBottom)
  match mb, wallT with
  | some (t, b), some w => if w < t then (some w, none) else (some t, some b)
  | some (t, b), none => (some t, some b)
  | none, some w => (some w, none)
  | none, none => (none, none)

/-- `draw_aiming_line` from the mouse position (`functions.py` lines
405-415): bail out on a degenerate aim (`dist < 0.1`), otherwise normalize
the direction and select the first impact. -/
def draw_aiming_line_impact (cue : Ball ℝ) (balls : List (Ball ℝ))
    (mouseX mouseY : ℝ) (tx ty tw th cushion : ℝ) :
    Option (Option ℝ × Option (Ball ℝ)) :=
  let dx := cue.x - mouseX
  let dy := cue.y - mouseY
  let dist := Real.sqrt (dx ^ 2 + dy ^ 2)
  if dist < 0.1 then none
  else some (aimImpact cue balls (dx / dist) (dy / dist) tx ty tw th cushion)

/-- A concrete cue ball at the origin used to exercise the aiming
predictor. -/
def aimCueBall : Ball ℝ :=
  { x := 0, y := 0, velX := 0, velY := 0, radius := 20, number := 0,
    bounceFactor := 24 / 25, friction := 991 / 1000 }

/-- A concrete object ball whose first-hit parameter along the `+x` aim
ray exactly equals the cushion distance (a grazing hit at the right
bound). -/
def aimTargetBall : Ball ℝ :=
  { x := 100, y := 40, velX := 0, velY := 0, radius := 20, number := 3,
    bounceFactor := 24 / 25, friction := 991 / 1000 }

end AimingLine

/-- A foul was collected by the shot-resolution scan (`main.py` lines
197-207): some sunk entry is the cue ball, or a solid/stripe that is not the
shooter's assigned type (reached through the `elif` chain, so not the cue
and not the 8-ball). -/
def foulOccurred (sunk : List BType) (myType : Option BType) : Prop :=
  ∃ t ∈ sunk, t = BType.cue ∨
    (t ≠ BType.cue ∧ t ≠ BType.eight ∧ myType ≠ some t ∧
      (t = BType.solid ∨ t = BType.stripe))

instance (sunk : List BType) (myType : Option BType) :
    Decidable (foulOccurred sunk myType) := by
  unfold foulOccurred; infer_instance

/-- `keep_turn` was collected by the shot-resolution scan (`main.py` line
204): some sunk entry equals the shooter's assigned type (again behind the
`elif` chain, so not the cue and not the 8-ball). -/
def keptOwn (sunk : List BType) (myType : Option BType) : Prop :=
  ∃ t ∈ sunk, t ≠ BType.cue ∧ t ≠ BType.eight ∧ myType = some t

instance (sunk : List BType) (myType : Option BType) :
    Decidable (keptOwn sunk myType) := by
  unfold keptOwn; infer_instance

/-- `my_balls_this_shot` (`main.py` line 212): how many sunk entries equal
the shooter's assigned type (`None` matches nothing, as in Python). -/
def ownCount (sunk : List BType) (myType : Option BType) : ℕ :=
  (sunk.filter (fun t => myType = some t)).length

/-- Outcome of the end-of-shot resolution block (`main.py` lines 192-236):
whether the game ended, who won, and who shoots next. -/
structure ShotOutcome where
  over : Bool
  winner : Option (Fin 2)
  next : Fin 2
deriving DecidableEq, Repr

/-- The end-of-shot resolution (`main.py` lines 192-236), as a function of
the balls sunk during the shot (their types, in capture order), the
shooter's assigned type, the shooter's score at resolution time and the
shooter's index.  If the 8-ball is in the buffer the game ends: a clean win
for the shooter exactly on the source's condition (assigned type, score
before this shot's own pots at least 7, no own ball this shot, no foul),
otherwise the opponent wins.  Without the 8-ball, the turn passes exactly
when a foul occurred or no own-kind ball was sunk; the game does not end
and the source does not switch `current_player_idx` when it sets
`game_over`. -/
def resolveShot (sunk : List BType) (myType : Option BType) (myScore : ℤ)
    (cur : Fin 2) : ShotOutcome :=
  let myBalls : ℤ := ownCount sunk myType
  let pointsBefore := myScore - myBalls
  if BType.eight ∈ sunk then
    if myType ≠ none ∧ pointsBefore ≥ 7 ∧ myBalls = 0 ∧ ¬ foulOccurred sunk myType then
      { over := true, winner := some cur, next := cur }
    else
      { over := true, winner := some (1 - cur), next := cur }
  else
    { over := false, winner := none,
      next := if foulOccurred sunk myType ∨ ¬ keptOwn sunk myType then 1 - cur else cur }

/-- The `"stripe" if b_type == "solid" else "solid"` assignment for the
opponent (`main.py` line 175). -/
def oppType : BType → BType
  | BType.solid => BType.stripe
  | BType.stripe => BType.solid
  | t => t

/-- Abstract match state for the rules layer of `main.py`: the live ball
numbers in list order, both scores, both assigned types, whose turn it is,
the numbers sunk during the current shot (`balls_sunk_in_shot`), the
`game_over` flag and the recorded winner. -/
structure GState where
  live : List ℕ
  score0 : ℤ
  score1 : ℤ
  t0 : Option BType
  t1 : Option BType
  cur : Fin 2
  sunkShot : List ℕ
  over : Bool
  winner : Option (Fin 2)
deriving DecidableEq, Repr

/-- `player_ball_types[current_player_idx]`. -/
def myT (s : GState) : Option BType := if s.cur = 0 then s.t0 else s.t1

/-- `player_scores[current_player_idx]`. -/
def scoreCur (s : GState) : ℤ := if s.cur = 0 then s.score0 else s.score1

/-- `player_scores[current_player_idx] += 1`. -/
def bumpScore (s : GState) : GState :=
  if s.cur = 0 then { s with score0 := s.score0 + 1 }
  else { s with score1 := s.score1 + 1 }

/-- The instant type assignment (`main.py` lines 174-175): the shooter gets
the sunk type, the opponent the opposite. -/
def assignTypes (s : GState) (t : BType) : GState :=
  if s.cur = 0 then { s with t0 := some t, t1 := some (oppType t) }
  else { s with t1 := some t, t0 := some (oppType t) }

/-- The per-frame processing of `sunk_this_frame` (`main.py` lines
158-188), one sunk ball at a time in capture order.  Every sunk ball is
appended to `balls_sunk_in_shot`; then for a non-cue ball: with no assigned
type yet, an 8-ball ends the game for the opponent (and `break`s out of the
loop), any other ball assigns the types and scores instantly; with a type
assigned, an own-kind ball scores instantly, and any other ball is the
penalty branch, which respawns it at the table center (appended to the live
list) unless it is the 8-ball. -/
def processSunk : List ℕ → GState → GState
  | [], s => s
  | n :: rest, s =>
    let s1 := { s with sunkShot := s.sunkShot ++ [n] }
    let t := ballTypeOf n
    if t = BType.cue then processSunk rest s1
    else if myT s1 = none then
      if t = BType.eight then
        { s1 with over := true, winner := some (1 - s1.cur) }
      else processSunk rest (bumpScore (assignTypes s1 t))
    else if myT s1 = some t then processSunk rest (bumpScore s1)
    else processSunk rest (if n ≠ 8 then { s1 with live := s1.live ++ [n] } else s1)

/-- One frame in which `check_pockets` captures the sub-list `captured` of
the live balls (in list order): the captured non-cue balls leave the live
list (the cue ball is respawned in place by `check_pockets` and stays), and
the capture data is processed by the main loop (`main.py` lines 156-188).
Which balls fall is decided by positions the abstraction does not carry, so
the captured sub-list is a parameter of the step. -/
def captureStep (s : GState) (captured : List ℕ) : GState :=
  processSunk captured { s with live := s.live.diff (captured.filter (· ≠ 0)) }

/-- The end-of-shot resolution applied to the abstract state (`main.py`
lines 192-236): compute the outcome from the sunk buffer, record
`game_over`/winner, switch the turn, clear the buffer. -/
def resolveStep (s : GState) : GState :=
  let r := resolveShot (s.sunkShot.map ballTypeOf) (myT s) (scoreCur s) s.cur
  { s with over := r.over,
           winner := if r.over then r.winner else s.winner,
           cur := r.next,
           sunkShot := [] }

/-- `rack_numbers` from `setup_rack` (`main.py` line 58). -/
def rack_numbers : List ℕ := [1, 9, 2, 10, 8, 3, 4, 11, 12, 5, 13, 14, 6, 15, 7]

/-- The live ball numbers right after `setup_rack` (`main.py` lines 54-68):
the cue ball is appended first, then the fifteen rack balls in
`rack_numbers` order. -/
def rackNums : List ℕ := 0 :: rack_numbers

/-- A fresh match state (scores zero, open table, empty shot buffer, rack
on the table); `c` is the randomly drawn starting player. -/
def initState (c : Fin 2) : GState :=
  { live := rackNums, score0 := 0, score1 := 0, t0 := none, t1 := none,
    cur := c, sunkShot := [], over := false, winner := none }

/-- Reachable match states of the rules layer: a started game, frames that
capture any sub-list of the live balls, end-of-shot resolutions (the source
runs them only while `game_over` is false), and the automatic restart four
seconds after a game over (`main.py` lines 89-98), which keeps only the
displayed winner name. -/
inductive ReachG : GState → Prop
  | init (c : Fin 2) : ReachG (initState c)
  | capture {s : GState} (captured : List ℕ) : ReachG s →
      captured.Sublist s.live → ReachG (captureStep s captured)
  | resolve {s : GState} : ReachG s → s.over = false → ReachG (resolveStep s)
  | reset {s : GState} (c : Fin 2) : ReachG s → s.over = true →
      ReachG { initState c with winner := s.winner }

/-- Number of live balls of a given type. -/
def cntK (k : BType) (l : List ℕ) : ℕ :=
  (l.filter (fun n => ballTypeOf n = k)).length

/-- `my_balls_this_shot` over the abstract state: sunk numbers whose type
equals the shooter's assigned type (`main.py` line 212). -/
def ownSunk (s : GState) : ℕ :=
  (s.sunkShot.filter (fun n => myT s = some (ballTypeOf n))).length

/-- `setup_rack` (`main.py` lines 54-68): the cue ball first (at a quarter
of the table width), then the standard triangle; iterating `row`/`col` and
an incrementing `idx` means ball `(row, col)` takes
`rack_numbers[row * (row + 1) / 2 + col]`.  The float literals `0.72`,
`1.732` and `2.05` are the exact rationals below, and `//` is floor
division on the positive table dimensions. -/
def setup_rack : List (Ball ℚ) :=
  create_ball ((TABLE_X + Int.fdiv TABLE_W 4 : ℤ) : ℚ)
      ((TABLE_Y + Int.fdiv TABLE_H 2 : ℤ) : ℚ) 0 ::
  (List.range 5).flatMap (fun (row : ℕ) =>
    (List.range (row + 1)).map (fun (col : ℕ) =>
      create_ball
        ((TABLE_X : ℚ) + (TABLE_W : ℚ) * (72 / 100) + (row : ℚ) * (BALL_RADIUS * (1732 / 1000)))
        (((TABLE_Y + Int.fdiv TABLE_H 2 : ℤ) : ℚ) + ((col : ℚ) - (row : ℚ) / 2) * (BALL_RADIUS * (205 / 100)))
        (rack_numbers.getD ((row * (row + 1)) / 2 + col : ℕ) 0)))

/-- The table-center respawn ball built by the penalty branch (`main.py`
lines 185-188). -/
def centerRespawnBall (n : ℕ) : Ball ℚ :=
  create_ball ((TABLE_X + Int.fdiv TABLE_W 2 : ℤ) : ℚ)
    ((TABLE_Y + Int.fdiv TABLE_H 2 : ℤ) : ℚ) n

/-- Reachable values of the live ball list `balls` in a started game:
`setup_rack` fills it, each frame runs `check_pockets` over it, the penalty
branch appends a center respawn for a non-cue number, and every other
mutation of the frame (physics, dragging, cushion and ball collisions)
updates balls in place, never changing their number or their order. -/
inductive ReachBalls : List (Ball ℚ) → Prop
  | init : ReachBalls setup_rack
  | pockets {bs : List (Ball ℚ)} : ReachBalls bs →
      ReachBalls (check_pockets bs TABLE_X TABLE_Y TABLE_W TABLE_H CUSHION_SIZE).1
  | respawn {bs : List (Ball ℚ)} (n : ℕ) : n ≠ 0 → ReachBalls bs →
      ReachBalls (bs ++ [centerRespawnBall n])
  | update {bs : List (Ball ℚ)} (f : Ball ℚ → Ball ℚ) :
      (∀ b, (f b).number = b.number) → ReachBalls bs → ReachBalls (bs.map f)

/-- Parameter list of `def apply_physics(ball, dt_multiplier)`
(`functions.py` line 130). -/
def apply_physics_params : List String := ["ball", "dt_multiplier"]

/-- Arguments of the main loop's call `apply_physics(ball, GRAVITY,
dt_multiplier)` (`main.py` line 153). -/
def apply_physics_args_main : List String := ["ball", "GRAVITY", "dt_multiplier"]

/-- Parameter list of `def check_all_collisions(balls, table_x, table_y,
table_w, table_h, cushion)` (`functions.py` line 210). -/
def check_all_collisions_params : List String :=
  ["balls", "table_x", "table_y", "table_w", "table_h", "cushion"]

/-- Arguments of the main loop's call `check_all_collisions(balls, TABLE_X,
TABLE_Y, TABLE_W, TABLE_H, CUSHION_SIZE, dt_multiplier)` (`main.py` line
241). -/
def check_all_collisions_args_main : List String :=
  ["balls", "TABLE_X", "TABLE_Y", "TABLE_W", "TABLE_H", "CUSHION_SIZE", "dt_multiplier"]

/-- A positional Python call binds exactly when the argument count equals
the parameter count (neither function declares defaults, `*args` or
keyword-only parameters); otherwise the interpreter raises `TypeError`,
which nothing in the main loop catches. -/
def pythonCallWellFormed (params args : List String) : Prop :=
  args.length = params.length

/-- A reachable state used below: the shooter (player 0) pots ball 1 on an
open table (getting solids), then balls 2-6 on successive shots, and then
balls 8 and 7 together in one final shot, so the 8-ball enters the capture
buffer in the same shot as the last solid. -/
def S3 : GState :=
  let s1 := resolveStep (captureStep (initState 0) [1])
  let s2 := resolveStep (captureStep s1 [2])
  let s3 := resolveStep (captureStep s2 [3])
  let s4 := resolveStep (captureStep s3 [4])
  let s5 := resolveStep (captureStep s4 [5])
  let s6 := resolveStep (captureStep s5 [6])
  captureStep s6 [8, 7]

/-- The scoring/pocketing lockstep relation of the rules layer.  `pend` are
capture numbers already removed from the live list but not yet processed by
the main loop (each pending solid/stripe will either score instantly for
its owner or be respawned into the live list, restoring the sum).  On an
open table both scores are zero and, counting pending balls, all seven
balls of each kind are on the table; once types are assigned, each player's
score plus the remaining balls of their kind counts to seven. -/
def Lockstep (pend : List ℕ) (s : GState) : Prop :=
  (s.t0 = none ∧ s.t1 = none ∧ s.score0 = 0 ∧ s.score1 = 0 ∧
    cntK BType.solid s.live + cntK BType.solid pend = 7 ∧
    cntK BType.stripe s.live + cntK BType.stripe pend = 7)
  ∨ (∃ k, (k = BType.solid ∨ k = BType.stripe) ∧
      s.t0 = some k ∧ s.t1 = some (oppType k) ∧
      s.score0 + ((cntK k s.live + cntK k pend : ℕ) : ℤ) = 7 ∧
      s.score1 + ((cntK (oppType k) s.live + cntK (oppType k) pend : ℕ) : ℤ) = 7)

theorem cntK_nil (k : BType) : cntK k [] = 0 := rfl

theorem cntK_cons (k : BType) (n : ℕ) (l : List ℕ) :
    cntK k (n :: l) = (if ballTypeOf n = k then 1 else 0) + cntK k l := by
  by_cases h : ballTypeOf n = k
  · simp [cntK, List.filter_cons, h, Nat.add_comm]
  · simp [cntK, List.filter_cons, h]

theorem cntK_append_singleton (k : BType) (l : List ℕ) (n : ℕ) :
    cntK k (l ++ [n]) = cntK k l + (if ballTypeOf n = k then 1 else 0) := by
  by_cases h : ballTypeOf n = k
  · simp [cntK, List.filter_append, List.filter_cons, h]
  · simp [cntK, List.filter_append, List.filter_cons, h]

theorem countP_erase_of_mem (p : ℕ → Bool) (a : ℕ) (l : List ℕ) (h : a ∈ l) :
    l.countP p = (l.erase a).countP p + (if p a then 1 else 0) := by
  induction l with
  | nil => cases h
  | cons b bs ih =>
    by_cases hba : b = a
    · subst hba
      rw [List.erase_cons_head, List.countP_cons]
    · rcases List.mem_cons.mp h with h1 | h2
      · exact absurd h1.symm hba
      · rw [List.erase_cons_tail (by simpa using hba)]
        simp only [List.countP_cons, ih h2]
        omega

theorem countP_diff_of_sublist (p : ℕ → Bool) (c l : List ℕ)
    (h : c.Sublist l) : (l.diff c).countP p + c.countP p = l.countP p := by
  induction c generalizing l with
  | nil => simp
  | cons a as ih =>
    have ha : a ∈ l := h.subset (List.mem_cons_self a as)
    have has : as.Sublist (l.erase a) := by
      have h2 : ((a :: as).erase a).Sublist (l.erase a) := h.erase a
      simpa using h2
    rw [List.diff_cons]
    have h3 := ih (l.erase a) has
    rw [countP_erase_of_mem p a l ha]
    simp only [List.countP_cons]
    omega

theorem cntK_diff_of_sublist (k : BType) (c l : List ℕ) (h : c.Sublist l) :
    cntK k (l.diff c) + cntK k c = cntK k l := by
  unfold cntK
  simp only [← List.countP_eq_length_filter]
  exact countP_diff_of_sublist _ c l h

theorem ballTypeOf_ne_zero {n : ℕ} (hk : ballTypeOf n ≠ BType.cue) : n ≠ 0 := by
  intro h; subst h; exact hk rfl

theorem ballTypeOf_eight_iff {n : ℕ} : ballTypeOf n = BType.eight ↔ n = 8 := by
  unfold ballTypeOf
  split_ifs <;> simp_all

/-- Type count is blind to the cue-filtering performed on the removal list
(`check_pockets` removes captured non-cue balls only; solid/stripe/8-ball
numbers are nonzero). -/
theorem cntK_filter_ne_zero (k : BType) (hk : k ≠ BType.cue) (c : List ℕ) :
    cntK k (c.filter (· ≠ 0)) = cntK k c := by
  induction c with
  | nil => rfl
  | cons a as ih =>
    rw [List.filter_cons]
    by_cases ha : a = 0
    · subst ha
      have hcue : ballTypeOf 0 = BType.cue := rfl
      have hne : ¬ ballTypeOf 0 = k := by rw [hcue]; exact fun h => hk h.symm
      simp only [cntK_cons, hne, if_neg, ite_false]
      simpa [ih] using ih
    · have hd : (decide (a ≠ 0)) = true := by simp [ha]
      simp only [hd, if_true, cntK_cons, ih]

theorem bumpScore_live (s : GState) : (bumpScore s).live = s.live := by
  unfold bumpScore; split <;> rfl

theorem bumpScore_t0 (s : GState) : (bumpScore s).t0 = s.t0 := by
  unfold bumpScore; split <;> rfl

theorem bumpScore_t1 (s : GState) : (bumpScore s).t1 = s.t1 := by
  unfold bumpScore; split <;> rfl

theorem bumpScore_over (s : GState) : (bumpScore s).over = s.over := by
  unfold bumpScore; split <;> rfl

theorem assignTypes_live (s : GState) (t : BType) :
    (assignTypes s t).live = s.live := by
  unfold assignTypes; split <;> rfl

theorem assignTypes_over (s : GState) (t : BType) :
    (assignTypes s t).over = s.over := by
  unfold assignTypes; split <;> rfl

theorem processSunk_over_mono (l : List ℕ) :
    ∀ s : GState, s.over = true → (processSunk l s).over = true := by
  induction l with
  | nil => intro s h; simpa [processSunk] using h
  | cons n rest ih =>
    intro s h
    simp only [processSunk]
    split_ifs <;>
      first
        | rfl
        | (apply ih; simp [bumpScore_over, assignTypes_over, h])

theorem lockstep_pend_drop {n : ℕ} {rest : List ℕ} {s : GState}
    (hn : ballTypeOf n = BType.cue ∨ ballTypeOf n = BType.eight)
    (h : Lockstep (n :: rest) s) : Lockstep rest s := by
  have hsol : ¬ ballTypeOf n = BType.solid := by
    rcases hn with h8 | h8 <;> simp [h8]
  have hstr : ¬ ballTypeOf n = BType.stripe := by
    rcases hn with h8 | h8 <;> simp [h8]
  rcases h with ⟨h1, h2, h3, h4, h5, h6⟩ | ⟨k, hk, h1, h2, h5, h6⟩
  · left
    refine ⟨h1, h2, h3, h4, ?_, ?_⟩
    · rwa [cntK_cons, if_neg hsol, Nat.zero_add] at h5
    · rwa [cntK_cons, if_neg hstr, Nat.zero_add] at h6
  · right
    refine ⟨k, hk, h1, h2, ?_, ?_⟩
    · have hnk : ¬ ballTypeOf n = k := by
        rcases hk with hh | hh <;> rw [hh] <;> assumption
      rwa [cntK_cons, if_neg hnk, Nat.zero_add] at h5
    · have hnk : ¬ ballTypeOf n = oppType k := by
        rcases hk with hh | hh <;> subst hh <;> simp [oppType] <;> assumption
      rwa [cntK_cons, if_neg hnk, Nat.zero_add] at h6

theorem processSunk_cons_cue {n : ℕ} {rest : List ℕ} {s : GState}
    (hcue : ballTypeOf n = BType.cue) :
    processSunk (n :: rest) s =
      processSunk rest { s with sunkShot := s.sunkShot ++ [n] } := by
  simp [processSunk, hcue]

theorem processSunk_cons_open_eight {n : ℕ} {rest : List ℕ} {s : GState}
    (hcue : ¬ ballTypeOf n = BType.cue) (hmy : myT s = none)
    (h8 : ballTypeOf n = BType.eight) :
    processSunk (n :: rest) s =
      { s with sunkShot := s.sunkShot ++ [n], over := true,
               winner := some (1 - s.cur) } := by
  have hmy' : myT { s with sunkShot := s.sunkShot ++ [n] } = none := hmy
  simp [processSunk, hcue, hmy', h8]

theorem processSunk_cons_assign {n : ℕ} {rest : List ℕ} {s : GState}
    (hcue : ¬ ballTypeOf n = BType.cue) (hmy : myT s = none)
    (h8 : ¬ ballTypeOf n = BType.eight) :
    processSunk (n :: rest) s =
      processSunk rest
        (bumpScore (assignTypes { s with sunkShot := s.sunkShot ++ [n] }
          (ballTypeOf n))) := by
  have hmy' : myT { s with sunkShot := s.sunkShot ++ [n] } = none := hmy
  simp [processSunk, hcue, hmy', h8]

theorem processSunk_cons_own {n : ℕ} {rest : List ℕ} {s : GState}
    (hcue : ¬ ballTypeOf n = BType.cue)
    (hmy : myT s = some (ballTypeOf n)) :
    processSunk (n :: rest) s =
      processSunk rest (bumpScore { s with sunkShot := s.sunkShot ++ [n] }) := by
  have hmy' : myT { s with sunkShot := s.sunkShot ++ [n] } =
      some (ballTypeOf n) := hmy
  simp [processSunk, hcue, hmy']

theorem processSunk_cons_respawn {n : ℕ} {rest : List ℕ} {s : GState}
    (hcue : ¬ ballTypeOf n = BType.cue) (hmyn : myT s ≠ none)
    (hmy : myT s ≠ some (ballTypeOf n)) (h8 : n ≠ 8) :
    processSunk (n :: rest) s =
      processSunk rest { s with live := s.live ++ [n],
                                sunkShot := s.sunkShot ++ [n] } := by
  have hmyn' : myT { s with sunkShot := s.sunkShot ++ [n] } ≠ none := hmyn
  have hmy' : myT { s with sunkShot := s.sunkShot ++ [n] } ≠
      some (ballTypeOf n) := hmy
  simp [processSunk, hcue, hmyn', hmy', h8]

theorem processSunk_cons_eight_removed {n : ℕ} {rest : List ℕ} {s : GState}
    (hcue : ¬ ballTypeOf n = BType.cue) (hmyn : myT s ≠ none)
    (hmy : myT s ≠ some (ballTypeOf n)) (h8 : n = 8) :
    processSunk (n :: rest) s =
      processSunk rest { s with sunkShot := s.sunkShot ++ [n] } := by
  subst h8
  have hmyn' : myT { s with sunkShot := s.sunkShot ++ [8] } ≠ none := hmyn
  have hmy' : myT { s with sunkShot := s.sunkShot ++ [8] } ≠
      some (ballTypeOf 8) := hmy
  simp [processSunk, hcue, hmyn', hmy']

theorem processSunk_lockstep :
    ∀ (pend : List ℕ) (s : GState),
      (s.over = false → Lockstep pend s) →
      (processSunk pend s).over = false → Lockstep [] (processSunk pend s) := by
  intro pend
  induction pend with
  | nil =>
    intro s h hov
    simp only [processSunk] at hov ⊢
    exact h hov
  | cons n rest ih =>
    intro s h hov
    by_cases hover : s.over = true
    · exfalso
      have hmono := processSunk_over_mono (n :: rest) s hover
      rw [hov] at hmono
      cases hmono
    have hso : s.over = false := by simpa using hover
    have hls := h hso
    by_cases hcue : ballTypeOf n = BType.cue
    · rw [processSunk_cons_cue hcue] at hov ⊢
      exact ih _ (fun _ => lockstep_pend_drop (Or.inl hcue) hls) hov
    by_cases hmy0 : myT s = none
    · by_cases h8 : ballTypeOf n = BType.eight
      · rw [processSunk_cons_open_eight hcue hmy0 h8] at hov
        exact absurd hov (by simp)
      · rw [processSunk_cons_assign hcue hmy0 h8] at hov ⊢
        apply ih _ _ hov
        intro _
        rcases hls with ⟨ht0, ht1, hs0, hs1, h5, h6⟩ | ⟨k, hk, ht0, ht1, h5, h6⟩
        · have ht : ballTypeOf n = BType.solid ∨ ballTypeOf n = BType.stripe := by
            cases hbt : ballTypeOf n
            · exact absurd hbt hcue
            · exact absurd hbt h8
            · exact Or.inl rfl
            · exact Or.inr rfl
          by_cases hc : s.cur = 0
          · rcases ht with ht' | ht'
            · refine Or.inr ⟨BType.solid, Or.inl rfl, ?_, ?_, ?_, ?_⟩
              · simp [bumpScore, assignTypes, hc, ht']
              · simp [bumpScore, assignTypes, hc, ht']
              · have e := cntK_cons BType.solid n rest
                rw [if_pos ht'] at e
                rw [e] at h5
                simp [bumpScore, assignTypes, hc, ht', hs0]
                push_cast
                omega
              · have e := cntK_cons BType.stripe n rest
                rw [if_neg (by simp [ht'])] at e
                rw [e] at h6
                simp [bumpScore, assignTypes, hc, ht', hs1, oppType]
                push_cast
                omega
            · refine Or.inr ⟨BType.stripe, Or.inr rfl, ?_, ?_, ?_, ?_⟩
              · simp [bumpScore, assignTypes, hc, ht']
              · simp [bumpScore, assignTypes, hc, ht']
              · have e := cntK_cons BType.stripe n rest
                rw [if_pos ht'] at e
                rw [e] at h6
                simp [bumpScore, assignTypes, hc, ht', hs0]
                push_cast
                omega
              · have e := cntK_cons BType.solid n rest
                rw [if_neg (by simp [ht'])] at e
                rw [e] at h5
                simp [bumpScore, assignTypes, hc, ht', hs1, oppType]
                push_cast
                omega
          · rcases ht with ht' | ht'
            · refine Or.inr ⟨BType.stripe, Or.inr rfl, ?_, ?_, ?_, ?_⟩
              · simp [bumpScore, assignTypes, hc, ht', oppType]
              · simp [bumpScore, assignTypes, hc, ht', oppType]
              · have e := cntK_cons BType.stripe n rest
                rw [if_neg (by simp [ht'])] at e
                rw [e] at h6
                simp [bumpScore, assignTypes, hc, ht', hs0, oppType]
                push_cast
                omega
              · have e := cntK_cons BType.solid n rest
                rw [if_pos ht'] at e
                rw [e] at h5
                simp [bumpScore, assignTypes, hc, ht', hs1, oppType]
                push_cast
                omega
            · refine Or.inr ⟨BType.solid, Or.inl rfl, ?_, ?_, ?_, ?_⟩
              · simp [bumpScore, assignTypes, hc, ht', oppType]
              · simp [bumpScore, assignTypes, hc, ht', oppType]
              · have e := cntK_cons BType.solid n rest
                rw [if_neg (by simp [ht'])] at e
                rw [e] at h5
                simp [bumpScore, assignTypes, hc, ht', hs0, oppType]
                push_cast
                omega
              · have e := cntK_cons BType.stripe n rest
                rw [if_pos ht'] at e
                rw [e] at h6
                simp [bumpScore, assignTypes, hc, ht', hs1, oppType]
                push_cast
                omega
        · exfalso
          by_cases hc : s.cur = 0 <;> simp [myT, hc, ht0, ht1] at hmy0
    by_cases hmyt : myT s = some (ballTypeOf n)
    · rw [processSunk_cons_own hcue hmyt] at hov ⊢
      apply ih _ _ hov
      intro _
      rcases hls with ⟨ht0, ht1, hs0, hs1, h5, h6⟩ | ⟨k, hk, ht0, ht1, h5, h6⟩
      · exfalso
        by_cases hc : s.cur = 0 <;> simp [myT, hc, ht0, ht1] at hmyt
      · have hkk : oppType k ≠ k := by
          rcases hk with hh | hh <;> subst hh <;> simp [oppType]
        by_cases hc : s.cur = 0
        · have htk : ballTypeOf n = k := by
            rw [myT, if_pos hc, ht0] at hmyt
            exact (Option.some_inj.mp hmyt).symm
          refine Or.inr ⟨k, hk, ?_, ?_, ?_, ?_⟩
          · simp [bumpScore, hc, ht0]
          · simp [bumpScore, hc, ht1]
          · have e := cntK_cons k n rest
            rw [if_pos htk] at e
            rw [e] at h5
            simp [bumpScore, hc]
            push_cast
            push_cast at h5
            omega
          · have e := cntK_cons (oppType k) n rest
            rw [if_neg (by rw [htk]; exact fun hh => hkk hh.symm)] at e
            rw [e] at h6
            simp [bumpScore, hc]
            push_cast
            push_cast at h6
            omega
        · have htk : ballTypeOf n = oppType k := by
            rw [myT, if_neg hc, ht1] at hmyt
            exact (Option.some_inj.mp hmyt).symm
          refine Or.inr ⟨k, hk, ?_, ?_, ?_, ?_⟩
          · simp [bumpScore, hc, ht0]
          · simp [bumpScore, hc, ht1]
          · have e := cntK_cons k n rest
            rw [if_neg (by rw [htk]; exact hkk)] at e
            rw [e] at h5
            simp [bumpScore, hc]
            push_cast
            push_cast at h5
            omega
          · have e := cntK_cons (oppType k) n rest
            rw [if_pos htk] at e
            rw [e] at h6
            simp [bumpScore, hc]
            push_cast
            push_cast at h6
            omega
    by_cases h8 : n = 8
    · rw [processSunk_cons_eight_removed hcue hmy0 hmyt h8] at hov ⊢
      exact ih _
        (fun _ => lockstep_pend_drop (Or.inr (ballTypeOf_eight_iff.mpr h8)) hls) hov
    · rw [processSunk_cons_respawn hcue hmy0 hmyt h8] at hov ⊢
      apply ih _ _ hov
      intro _
      have hte : ¬ ballTypeOf n = BType.eight := by
        rw [ballTypeOf_eight_iff]
        exact h8
      have ht : ballTypeOf n = BType.solid ∨ ballTypeOf n = BType.stripe := by
        cases hbt : ballTypeOf n
        · exact absurd hbt hcue
        · exact absurd hbt hte
        · exact Or.inl rfl
        · exact Or.inr rfl
      rcases hls with ⟨ht0, ht1, hs0, hs1, h5, h6⟩ | ⟨k, hk, ht0, ht1, h5, h6⟩
      · exfalso
        by_cases hc : s.cur = 0 <;> simp [myT, hc, ht0, ht1] at hmy0
      · have hkk : oppType k ≠ k := by
          rcases hk with hh | hh <;> subst hh <;> simp [oppType]
        by_cases hc : s.cur = 0
        · have htk : ballTypeOf n = oppType k := by
            rw [myT, if_pos hc, ht0] at hmyt
            rcases hk with hh | hh <;> rcases ht with hh2 | hh2 <;>
              subst hh <;> simp_all [oppType]
          refine Or.inr ⟨k, hk, ht0, ht1, ?_, ?_⟩
          · have e := cntK_cons k n rest
            rw [if_neg (by rw [htk]; exact hkk)] at e
            rw [e] at h5
            have ea := cntK_append_singleton k s.live n
            rw [if_neg (by rw [htk]; exact hkk), Nat.add_zero] at ea
            simp only [ea]
            push_cast
            push_cast at h5
            omega
          · have e := cntK_cons (oppType k) n rest
            rw [if_pos htk] at e
            rw [e] at h6
            have ea := cntK_append_singleton (oppType k) s.live n
            rw [if_pos htk] at ea
            simp only [ea]
            push_cast
            push_cast at h6
            omega
        · have htk : ballTypeOf n = k := by
            rw [myT, if_neg hc, ht1] at hmyt
            rcases hk with hh | hh <;> rcases ht with hh2 | hh2 <;>
              subst hh <;> simp_all [oppType]
          refine Or.inr ⟨k, hk, ht0, ht1, ?_, ?_⟩
          · have e := cntK_cons k n rest
            rw [if_pos htk] at e
            rw [e] at h5
            have ea := cntK_append_singleton k s.live n
            rw [if_pos htk] at ea
            simp only [ea]
            push_cast
            push_cast at h5
            omega
          · have e := cntK_cons (oppType k) n rest
            rw [if_neg (by rw [htk]; exact fun hh => hkk hh.symm)] at e
            rw [e] at h6
            have ea := cntK_append_singleton (oppType k) s.live n
            rw [if_neg (by rw [htk]; exact fun hh => hkk hh.symm), Nat.add_zero] at ea
            simp only [ea]
            push_cast
            push_cast at h6
            omega

theorem rack_counts :
    cntK BType.solid rackNums = 7 ∧ cntK BType.stripe rackNums = 7 := by
  decide

theorem reach_lockstep (s : GState) (h : ReachG s) :
    s.over = false → Lockstep [] s := by
  induction h with
  | init c =>
    intro _
    refine Or.inl ⟨rfl, rfl, rfl, rfl, ?_, ?_⟩
    · simpa [initState, cntK_nil] using rack_counts.1
    · simpa [initState, cntK_nil] using rack_counts.2
  | capture captured hr hsub ih =>
    intro hov
    apply processSunk_lockstep captured _ _ hov
    intro hov2
    have hls := ih hov2
    rename_i s'
    have hsubf : (captured.filter (· ≠ 0)).Sublist s'.live :=
      (List.filter_sublist captured).trans hsub
    rcases hls with ⟨ht0, ht1, hs0, hs1, h5, h6⟩ | ⟨k, hk, ht0, ht1, h5, h6⟩
    · refine Or.inl ⟨ht0, ht1, hs0, hs1, ?_, ?_⟩
      · have hd := cntK_diff_of_sublist BType.solid (captured.filter (· ≠ 0)) s'.live hsubf
        have hf := cntK_filter_ne_zero BType.solid (by simp) captured
        simp only [cntK_nil, Nat.add_zero] at h5
        simp only []
        omega
      · have hd := cntK_diff_of_sublist BType.stripe (captured.filter (· ≠ 0)) s'.live hsubf
        have hf := cntK_filter_ne_zero BType.stripe (by simp) captured
        simp only [cntK_nil, Nat.add_zero] at h5 h6
        simp only []
        omega
    · have hkcue : k ≠ BType.cue := by rcases hk with hh | hh <;> simp [hh]
      have hocue : oppType k ≠ BType.cue := by
        rcases hk with hh | hh <;> subst hh <;> simp [oppType]
      refine Or.inr ⟨k, hk, ht0, ht1, ?_, ?_⟩
      · have hd := cntK_diff_of_sublist k (captured.filter (· ≠ 0)) s'.live hsubf
        have hf := cntK_filter_ne_zero k hkcue captured
        simp only [cntK_nil, Nat.add_zero] at h5
        push_cast
        push_cast at h5
        omega
      · have hd := cntK_diff_of_sublist (oppType k) (captured.filter (· ≠ 0)) s'.live hsubf
        have hf := cntK_filter_ne_zero (oppType k) hocue captured
        simp only [cntK_nil, Nat.add_zero] at h6
        push_cast
        push_cast at h6
        omega
  | resolve hr hov0 ih =>
    intro hov
    have hls := ih hov0
    rename_i s'
    rcases hls with ⟨ht0, ht1, hs0, hs1, h5, h6⟩ | ⟨k, hk, ht0, ht1, h5, h6⟩
    · exact Or.inl ⟨ht0, ht1, hs0, hs1, h5, h6⟩
    · exact Or.inr ⟨k, hk, ht0, ht1, h5, h6⟩
  | reset c hr hov ih =>
    intro _
    refine Or.inl ⟨rfl, rfl, rfl, rfl, ?_, ?_⟩
    · simpa [initState, cntK_nil] using rack_counts.1
    · simpa [initState, cntK_nil] using rack_counts.2

theorem S3_reachable : ReachG S3 := by
  have h0 : ReachG (initState 0) := ReachG.init 0
  have h1 := ReachG.resolve (ReachG.capture [1] h0 (by decide)) (by decide)
  have h2 := ReachG.resolve (ReachG.capture [2] h1 (by decide)) (by decide)
  have h3 := ReachG.resolve (ReachG.capture [3] h2 (by decide)) (by decide)
  have h4 := ReachG.resolve (ReachG.capture [4] h3 (by decide)) (by decide)
  have h5 := ReachG.resolve (ReachG.capture [5] h4 (by decide)) (by decide)
  have h6 := ReachG.resolve (ReachG.capture [6] h5 (by decide)) (by decide)
  exact ReachG.capture [8, 7] h6 (by decide)

/-- C3 (amended): in every reachable state with `game_over` false and an
assigned shooter type, the proxy holds iff the shooter's kind is cleared
from the live list AND no own-kind ball was captured this shot. -/
theorem points_proxy_iff_cleared_and_no_own (s : GState) (k : BType)
    (hreach : ReachG s) (hover : s.over = false) (hk : myT s = some k)
    (h8 : (8 : ℕ) ∈ s.sunkShot) :
    scoreCur s - (ownSunk s : ℤ) ≥ 7 ↔ (cntK k s.live = 0 ∧ ownSunk s = 0) := by
  have hls := reach_lockstep s hreach hover
  rcases hls with ⟨ht0, ht1, hs0, hs1, h5, h6⟩ | ⟨k0, hk0, ht0, ht1, h5, h6⟩
  · exfalso
    by_cases hc : s.cur = 0 <;> simp [myT, hc, ht0, ht1] at hk
  · by_cases hc : s.cur = 0
    · have hkk : k0 = k := by
        rw [myT, if_pos hc, ht0] at hk
        exact Option.some_inj.mp hk
      subst hkk
      have hsc : scoreCur s = s.score0 := by simp [scoreCur, hc]
      rw [hsc]
      simp only [cntK_nil, Nat.add_zero] at h5
      omega
    · have hkk : oppType k0 = k := by
        rw [myT, if_neg hc, ht1] at hk
        exact Option.some_inj.mp hk
      subst hkk
      have hsc : scoreCur s = s.score1 := by simp [scoreCur, hc]
      rw [hsc]
      simp only [cntK_nil, Nat.add_zero] at h6
      omega

/-- C3 counterexample: in the reachable state `S3` (a shooter on 6 points
pots their last solid and the 8-ball in the same shot) the score proxy
`points_before_shot >= 7` is false although all seven solids are absent
from the live list — the claimed equivalence fails. -/
theorem points_proxy_counterexample :
    ReachG S3 ∧ S3.over = false ∧ myT S3 = some BType.solid ∧
      (8 : ℕ) ∈ S3.sunkShot ∧
      ¬ (scoreCur S3 - (ownSunk S3 : ℤ) ≥ 7 ↔ cntK BType.solid S3.live = 0) :=
  ⟨S3_reachable, by decide, by decide, by decide, by decide⟩

/-- Witness: the amended equivalence instantiated at the concrete reachable
state `S3` (both sides false there). -/
theorem points_proxy_iff_witness :
    scoreCur S3 - (ownSunk S3 : ℤ) ≥ 7 ↔
      (cntK BType.solid S3.live = 0 ∧ ownSunk S3 = 0) :=
  points_proxy_iff_cleared_and_no_own S3 BType.solid S3_reachable
    (by decide) (by decide) (by decide)

theorem one_sub_ne : ∀ c : Fin 2, 1 - c ≠ c := by decide

/-- C2: with the 8-ball in the capture buffer and the shooter's type
already assigned, shot resolution always ends the game, and the shooter is
recorded as the winner exactly when the score minus the own-kind captures
of this shot is at least 7, no own-kind ball was captured this shot, and no
foul occurred; in every other such case the opponent is recorded as the
winner. -/
theorem eight_ball_resolution_win_iff (sunk : List BType) (k : BType)
    (score : ℤ) (cur : Fin 2) (h8 : BType.eight ∈ sunk) :
    (resolveShot sunk (some k) score cur).over = true ∧
      ((resolveShot sunk (some k) score cur).winner = some cur ↔
        (score - (ownCount sunk (some k) : ℤ) ≥ 7 ∧ ownCount sunk (some k) = 0 ∧
          ¬ foulOccurred sunk (some k))) ∧
      ((resolveShot sunk (some k) score cur).winner = some (1 - cur) ↔
        ¬ (score - (ownCount sunk (some k) : ℤ) ≥ 7 ∧ ownCount sunk (some k) = 0 ∧
          ¬ foulOccurred sunk (some k))) := by
  unfold resolveShot
  rw [if_pos h8]
  by_cases hwin : (some k ≠ none ∧ score - (ownCount sunk (some k) : ℤ) ≥ 7 ∧
      (ownCount sunk (some k) : ℤ) = 0 ∧ ¬ foulOccurred sunk (some k))
  · rw [if_pos hwin]
    rcases hwin with ⟨-, hw1, hw2, hw3⟩
    refine ⟨rfl, ?_, ?_⟩
    · simp only [Option.some_inj]
      constructor
      · intro _
        exact ⟨hw1, by exact_mod_cast hw2, hw3⟩
      · intro _
        trivial
    · simp only [Option.some_inj]
      constructor
      · intro hcontra
        exact absurd hcontra.symm (one_sub_ne cur)
      · intro hcontra
        exact absurd ⟨hw1, by exact_mod_cast hw2, hw3⟩ hcontra
  · rw [if_neg hwin]
    refine ⟨rfl, ?_, ?_⟩
    · simp only [Option.some_inj]
      constructor
      · intro hcontra
        exact absurd hcontra (one_sub_ne cur)
      · intro hcond
        exact absurd ⟨by simp, hcond.1, by exact_mod_cast hcond.2.1, hcond.2.2⟩ hwin
    · simp only [Option.some_inj]
      constructor
      · intro _
        intro hcond
        exact absurd ⟨by simp, hcond.1, by exact_mod_cast hcond.2.1, hcond.2.2⟩ hwin
      · intro _
        trivial

/-- Witness for C2: spec scenario (d) — the shooter (solids, score exactly
7, all solids previously cleared) pots only the 8-ball with no foul and is
recorded as the winner. -/
theorem eight_ball_resolution_win_iff_witness :
    (resolveShot [BType.eight] (some BType.solid) 7 0).over = true ∧
      (resolveShot [BType.eight] (some BType.solid) 7 0).winner = some 0 := by
  have h := eight_ball_resolution_win_iff [BType.eight] BType.solid 7 0 (by decide)
  exact ⟨h.1, h.2.1.mpr (by decide)⟩

/-- C4: without a game-ending 8-ball event the game does not end, and the
turn passes to the opponent exactly when the cue ball was captured, or an
object ball outside the shooter's assignment (an opponent-kind or
unassignable solid/stripe) was captured, or the shooter captured none of
their own kind; a foul forces the transfer even alongside an own-kind pot. -/
theorem turn_transfer_iff (sunk : List BType) (myType : Option BType)
    (score : ℤ) (cur : Fin 2) (h8 : BType.eight ∉ sunk) :
    (resolveShot sunk myType score cur).over = false ∧
      ((resolveShot sunk myType score cur).next = 1 - cur ↔
        (foulOccurred sunk myType ∨ ¬ keptOwn sunk myType)) ∧
      ((resolveShot sunk myType score cur).next = cur ↔
        ¬ (foulOccurred sunk myType ∨ ¬ keptOwn sunk myType)) := by
  unfold resolveShot
  rw [if_neg h8]
  by_cases hpass : foulOccurred sunk myType ∨ ¬ keptOwn sunk myType
  · rw [if_pos hpass]
    exact ⟨rfl, ⟨fun _ => hpass, fun _ => rfl⟩,
      ⟨fun hcontra => absurd hcontra (one_sub_ne cur), fun hcontra => absurd hpass hcontra⟩⟩
  · rw [if_neg hpass]
    exact ⟨rfl, ⟨fun hcontra => absurd hcontra.symm (one_sub_ne cur), fun hp => absurd hp hpass⟩,
      ⟨fun _ => hpass, fun _ => rfl⟩⟩

/-- Witness for C4: spec scenario (e) — the cue ball is potted alongside an
own-kind ball; the foul forces the transfer despite the own-kind pot. -/
theorem turn_transfer_iff_witness :
    (resolveShot [BType.cue, BType.solid] (some BType.solid) 1 0).over = false ∧
      (resolveShot [BType.cue, BType.solid] (some BType.solid) 1 0).next = 1 := by
  have h := turn_transfer_iff [BType.cue, BType.solid] (some BType.solid) 1 0 (by decide)
  exact ⟨h.1, h.2.1.mpr (Or.inl ⟨BType.cue, by decide, Or.inl rfl⟩)⟩

/-- C5: on any ball list, `check_pockets` never removes the cue ball — a
captured number-0 ball survives with its position set to the fixed respawn
point and both velocity components zeroed, an uncaptured ball survives
unchanged, every captured non-cue ball is removed — so a cue ball present
before the call is present after it. -/
theorem check_pockets_cue_preserved (balls : List (Ball ℚ))
    (tx ty tw th cushion : ℤ) :
    (∀ b ∈ balls, b.number = 0 → pocketCaptured b tx ty tw th cushion = true →
        respawnCue b tx ty tw th ∈ (check_pockets balls tx ty tw th cushion).1 ∧
        (respawnCue b tx ty tw th).x = ((tx + Int.fdiv tw 4 : ℤ) : ℚ) ∧
        (respawnCue b tx ty tw th).y = ((ty + Int.fdiv th 2 : ℤ) : ℚ) ∧
        (respawnCue b tx ty tw th).velX = 0 ∧
        (respawnCue b tx ty tw th).velY = 0 ∧
        (respawnCue b tx ty tw th).number = 0) ∧
    (∀ b ∈ balls, pocketCaptured b tx ty tw th cushion = false →
        b ∈ (check_pockets balls tx ty tw th cushion).1) ∧
    (∀ b : Ball ℚ, pocketCaptured b tx ty tw th cushion = true → b.number ≠ 0 →
        b ∉ (check_pockets balls tx ty tw th cushion).1) ∧
    ((∃ b ∈ balls, b.number = 0) →
        ∃ b' ∈ (check_pockets balls tx ty tw th cushion).1, b'.number = 0) := by
  have hp1 : ∀ b ∈ balls, b.number = 0 →
      pocketCaptured b tx ty tw th cushion = true →
      respawnCue b tx ty tw th ∈ (check_pockets balls tx ty tw th cushion).1 := by
    intro b hb hnum hcap
    simp only [check_pockets]
    exact List.mem_filterMap.mpr ⟨b, hb, by simp [hcap, hnum]⟩
  have hp2 : ∀ b ∈ balls, pocketCaptured b tx ty tw th cushion = false →
      b ∈ (check_pockets balls tx ty tw th cushion).1 := by
    intro b hb hcap
    simp only [check_pockets]
    exact List.mem_filterMap.mpr ⟨b, hb, by simp [hcap]⟩
  refine ⟨fun b hb hnum hcap => ⟨hp1 b hb hnum hcap, rfl, rfl, rfl, rfl, hnum⟩,
    hp2, ?_, ?_⟩
  · intro b hcap hnum hmem
    simp only [check_pockets] at hmem
    rcases List.mem_filterMap.mp hmem with ⟨a, ha, hfa⟩
    by_cases hacap : pocketCaptured a tx ty tw th cushion = true
    · by_cases hanum : a.number = 0
      · rw [if_pos hacap, if_pos hanum] at hfa
        have hba : b = respawnCue a tx ty tw th := (Option.some_inj.mp hfa).symm
        apply hnum
        rw [hba]
        exact hanum
      · rw [if_pos hacap, if_neg hanum] at hfa
        cases hfa
    · rw [if_neg hacap] at hfa
      have hba : b = a := (Option.some_inj.mp hfa).symm
      apply hacap
      rw [← hba]
      exact hcap
  · rintro ⟨b, hb, hnum⟩
    by_cases hcap : pocketCaptured b tx ty tw th cushion = true
    · exact ⟨respawnCue b tx ty tw th, hp1 b hb hnum hcap, hnum⟩
    · exact ⟨b, hp2 b hb (by simpa using hcap), hnum⟩

/-- Witness for C5: a cue ball sitting in the top-left pocket together with
a far-away 3-ball; the returned list still holds a number-0 ball. -/
theorem check_pockets_cue_preserved_witness :
    ∃ b' ∈ (check_pockets [create_ball 270 310 0, create_ball 800 600 3]
        TABLE_X TABLE_Y TABLE_W TABLE_H CUSHION_SIZE).1, b'.number = 0 :=
  (check_pockets_cue_preserved [create_ball 270 310 0, create_ball 800 600 3]
      TABLE_X TABLE_Y TABLE_W TABLE_H CUSHION_SIZE).2.2.2
    ⟨create_ball 270 310 0, List.mem_cons_self _ _, rfl⟩

/-- C6 counterexample: a ball already beyond the left bound but moving
right (into the table) keeps its velocity sign: the source sets
`vel_x = abs(vel_x) * 0.75 = 3`, whereas reflecting (sign-inverting) the
component scaled by 0.75 would give `-3`. -/
theorem collide_walls_not_sign_inversion :
    ({ create_ball 280 600 1 with velX := 4 } : Ball ℚ).x <
        210 + 60 + ({ create_ball 280 600 1 with velX := 4 } : Ball ℚ).radius ∧
      (collide_with_walls { create_ball 280 600 1 with velX := 4 }
          210 250 1500 750 60).velX = 3 ∧
      (3 : ℚ) ≠ -(({ create_ball 280 600 1 with velX := 4 } : Ball ℚ).velX *
        CUSHION_BOUNCE) := by
  refine ⟨by norm_num [create_ball, BALL_RADIUS], ?_, ?_⟩
  · norm_num [collide_with_walls, create_ball, BALL_RADIUS, CUSHION_BOUNCE]
  · norm_num [create_ball, CUSHION_BOUNCE]

/-- C6 (amended): when a coordinate exceeds an inset bound the position is
clamped exactly to that bound and the axis velocity is set to 0.75 times
its absolute value, directed back into the table — which equals the claimed
sign inversion exactly when the component pointed toward the violated
cushion; a coordinate inside its bounds is untouched, and the axes are
resolved independently. -/
theorem collide_walls_characterization (ball : Ball ℚ)
    (tx ty tw th cushion : ℚ) :
    (ball.x < tx + cushion + ball.radius →
      (collide_with_walls ball tx ty tw th cushion).x = tx + cushion + ball.radius ∧
      (collide_with_walls ball tx ty tw th cushion).velX = |ball.velX| * CUSHION_BOUNCE ∧
      (ball.velX ≤ 0 →
        (collide_with_walls ball tx ty tw th cushion).velX = -(ball.velX * CUSHION_BOUNCE))) ∧
    (¬ ball.x < tx + cushion + ball.radius →
      ball.x > tx + tw - cushion - ball.radius →
      (collide_with_walls ball tx ty tw th cushion).x = tx + tw - cushion - ball.radius ∧
      (collide_with_walls ball tx ty tw th cushion).velX = -|ball.velX| * CUSHION_BOUNCE ∧
      (0 ≤ ball.velX →
        (collide_with_walls ball tx ty tw th cushion).velX = -(ball.velX * CUSHION_BOUNCE))) ∧
    (tx + cushion + ball.radius ≤ ball.x →
      ball.x ≤ tx + tw - cushion - ball.radius →
      (collide_with_walls ball tx ty tw th cushion).x = ball.x ∧
      (collide_with_walls ball tx ty tw th cushion).velX = ball.velX) ∧
    (ball.y < ty + cushion + ball.radius →
      (collide_with_walls ball tx ty tw th cushion).y = ty + cushion + ball.radius ∧
      (collide_with_walls ball tx ty tw th cushion).velY = |ball.velY| * CUSHION_BOUNCE ∧
      (ball.velY ≤ 0 →
        (collide_with_walls ball tx ty tw th cushion).velY = -(ball.velY * CUSHION_BOUNCE))) ∧
    (¬ ball.y < ty + cushion + ball.radius →
      ball.y > ty + th - cushion - ball.radius →
      (collide_with_walls ball tx ty tw th cushion).y = ty + th - cushion - ball.radius ∧
      (collide_with_walls ball tx ty tw th cushion).velY = -|ball.velY| * CUSHION_BOUNCE ∧
      (0 ≤ ball.velY →
        (collide_with_walls ball tx ty tw th cushion).velY = -(ball.velY * CUSHION_BOUNCE))) ∧
    (ty + cushion + ball.radius ≤ ball.y →
      ball.y ≤ ty + th - cushion - ball.radius →
      (collide_with_walls ball tx ty tw th cushion).y = ball.y ∧
      (collide_with_walls ball tx ty tw th cushion).velY = ball.velY) := by
  simp only [collide_with_walls]
  refine ⟨?_, ?_, ?_, ?_, ?_, ?_⟩
  · intro hx1
    rw [if_pos hx1]
    split_ifs <;>
      exact ⟨rfl, rfl, fun hv => by rw [abs_of_nonpos hv]; ring⟩
  · intro hx1 hx2
    rw [if_neg hx1, if_pos hx2]
    split_ifs <;>
      exact ⟨rfl, rfl, fun hv => by rw [abs_of_nonneg hv]; ring⟩
  · intro hx1 hx2
    rw [if_neg (not_lt.mpr hx1), if_neg (not_lt.mpr hx2)]
    split_ifs <;> exact ⟨rfl, rfl⟩
  · intro hy1
    split_ifs <;>
      first
        | exact ⟨rfl, rfl, fun hv => by rw [abs_of_nonpos hv]; ring⟩
        | exact absurd hy1 (by assumption)
  · intro hy1 hy2
    split_ifs <;>
      first
        | exact ⟨rfl, rfl, fun hv => by rw [abs_of_nonneg hv]; ring⟩
        | exact absurd (by assumption) hy1
        | exact absurd hy2 (by assumption)
  · intro hy1 hy2
    split_ifs <;>
      first
        | exact ⟨rfl, rfl⟩
        | exact absurd (by assumption) (not_lt.mpr hy1)
        | exact absurd (by assumption) (not_lt.mpr hy2)

/-- Witness for C6 (amended): a ball beyond the left bound moving left is
clamped to the bound with its x-velocity genuinely sign-inverted and scaled
by 0.75. -/
theorem collide_walls_characterization_witness :
    (collide_with_walls { create_ball 280 600 (1 : ℕ) with velX := -4 }
        210 250 1500 750 60).x = 210 + 60 +
        ({ create_ball 280 600 (1 : ℕ) with velX := -4 } : Ball ℚ).radius ∧
      (collide_with_walls { create_ball 280 600 (1 : ℕ) with velX := -4 }
        210 250 1500 750 60).velX =
        -(({ create_ball 280 600 (1 : ℕ) with velX := -4 } : Ball ℚ).velX *
          CUSHION_BOUNCE) := by
  have h := (collide_walls_characterization
      { create_ball 280 600 (1 : ℕ) with velX := -4 } 210 250 1500 750 60).1
      (by norm_num [create_ball, BALL_RADIUS])
  exact ⟨h.1, h.2.2 (by norm_num [create_ball])⟩

/-- C8: whenever the inset playable bounds are non-degenerate (as they are
for the game's table), the position produced by cushion resolution lies
within `[bound_min, bound_max]` on each axis. -/
theorem collide_walls_containment (ball : Ball ℚ) (tx ty tw th cushion : ℚ)
    (hx : tx + cushion + ball.radius ≤ tx + tw - cushion - ball.radius)
    (hy : ty + cushion + ball.radius ≤ ty + th - cushion - ball.radius) :
    tx + cushion + ball.radius ≤ (collide_with_walls ball tx ty tw th cushion).x ∧
      (collide_with_walls ball tx ty tw th cushion).x ≤ tx + tw - cushion - ball.radius ∧
      ty + cushion + ball.radius ≤ (collide_with_walls ball tx ty tw th cushion).y ∧
      (collide_with_walls ball tx ty tw th cushion).y ≤ ty + th - cushion - ball.radius := by
  simp only [collide_with_walls]
  split_ifs with h1 h2 h3 h4 <;>
    refine ⟨?_, ?_, ?_, ?_⟩ <;>
    simp_all <;>
    linarith

/-- Witness for C8: a ball far outside the playable area on both axes ends
inside the inset bounds with the game's actual table constants. -/
theorem collide_walls_containment_witness :
    (210 : ℚ) + 60 + ({ create_ball 0 5000 (2 : ℕ) with velX := 9, velY := -7 } : Ball ℚ).radius ≤
        (collide_with_walls { create_ball 0 5000 (2 : ℕ) with velX := 9, velY := -7 }
          210 250 1500 750 60).x ∧
      (collide_with_walls { create_ball 0 5000 (2 : ℕ) with velX := 9, velY := -7 }
          210 250 1500 750 60).x ≤ 210 + 1500 - 60 -
        ({ create_ball 0 5000 (2 : ℕ) with velX := 9, velY := -7 } : Ball ℚ).radius ∧
      (250 : ℚ) + 60 + ({ create_ball 0 5000 (2 : ℕ) with velX := 9, velY := -7 } : Ball ℚ).radius ≤
        (collide_with_walls { create_ball 0 5000 (2 : ℕ) with velX := 9, velY := -7 }
          210 250 1500 750 60).y ∧
      (collide_with_walls { create_ball 0 5000 (2 : ℕ) with velX := 9, velY := -7 }
          210 250 1500 750 60).y ≤ 250 + 750 - 60 -
        ({ create_ball 0 5000 (2 : ℕ) with velX := 9, velY := -7 } : Ball ℚ).radius :=
  collide_walls_containment { create_ball 0 5000 (2 : ℕ) with velX := 9, velY := -7 }
    210 250 1500 750 60 (by norm_num [create_ball, BALL_RADIUS])
    (by norm_num [create_ball, BALL_RADIUS])

theorem abs_energy_aux (a c b : ℚ) (h0 : 0 ≤ b) (h1 : b ≤ 1)
    (hac : 0 ≤ a - c) :
    |a - (a - c) * (1 + b) / 2| + |c + (a - c) * (1 + b) / 2| ≤ |a| + |c| := by
  have hu1 : b * (a - c) ≤ a - c := by nlinarith
  have hu2 : -(a - c) ≤ b * (a - c) := by nlinarith
  have e1 : a - (a - c) * (1 + b) / 2 = (a + c) / 2 - b * (a - c) / 2 := by ring
  have e2 : c + (a - c) * (1 + b) / 2 = (a + c) / 2 + b * (a - c) / 2 := by ring
  rw [e1, e2]
  rcases abs_cases ((a + c) / 2 - b * (a - c) / 2) with ⟨ha1, ha2⟩ | ⟨ha1, ha2⟩ <;>
    rcases abs_cases ((a + c) / 2 + b * (a - c) / 2) with ⟨hb1, hb2⟩ | ⟨hb1, hb2⟩ <;>
    rcases abs_cases a with ⟨hc1, hc2⟩ | ⟨hc1, hc2⟩ <;>
    rcases abs_cases c with ⟨hd1, hd2⟩ | ⟨hd1, hd2⟩ <;>
    rw [ha1, hb1, hc1, hd1] <;> linarith

/-- C7: on an overlapping pair with the source's restitution 0.96, if the
relative velocity projected on the collision normal is positive
(approaching), the applied impulse leaves the post-impact relative normal
velocity equal to `-0.96` times the pre-impact one and the post-impact sum
of normal-direction speeds no greater than the pre-impact sum; if the
projection is `<= 0`, both velocities are left entirely unchanged.  All
projections here are stated against the unnormalized offset `δ`, i.e. the
source's normal-projected quantities scaled by the positive centre
distance, which preserves the claimed equality and inequality. -/
theorem collide_ball_velocity_resolution (ball neighbor : Ball ℚ)
    (hb : ball.bounceFactor = 24 / 25)
    (hov : deltaX ball neighbor * deltaX ball neighbor +
        deltaY ball neighbor * deltaY ball neighbor <
      (ball.radius + neighbor.radius) * (ball.radius + neighbor.radius)) :
    (0 < relVelDotDelta ball neighbor →
      relVelDotDelta (collide_with_ball_vel ball neighbor).1
          (collide_with_ball_vel ball neighbor).2 =
        -(24 / 25) * relVelDotDelta ball neighbor ∧
      |projDelta (collide_with_ball_vel ball neighbor).1 ball neighbor| +
          |projDelta (collide_with_ball_vel ball neighbor).2 ball neighbor| ≤
        |projDelta ball ball neighbor| + |projDelta neighbor ball neighbor|) ∧
    (relVelDotDelta ball neighbor ≤ 0 →
      (collide_with_ball_vel ball neighbor).1 = ball ∧
      (collide_with_ball_vel ball neighbor).2 = neighbor) := by
  simp only [deltaX, deltaY, relVelDotDelta] at hov ⊢
  simp only [collide_with_ball_vel, hb]
  rw [if_neg (not_le.mpr hov)]
  constructor
  · intro hvpos
    rw [if_neg (not_le.mpr hvpos)]
    have hD : (neighbor.x - ball.x) * (neighbor.x - ball.x) +
        (neighbor.y - ball.y) * (neighbor.y - ball.y) ≠ 0 := by
      intro h0
      have hdx : neighbor.x - ball.x = 0 := by nlinarith [sq_nonneg (neighbor.x - ball.x), sq_nonneg (neighbor.y - ball.y)]
      have hdy : neighbor.y - ball.y = 0 := by nlinarith [sq_nonneg (neighbor.x - ball.x), sq_nonneg (neighbor.y - ball.y)]
      rw [hdx, hdy] at hvpos
      simp at hvpos
    constructor
    · simp only [deltaX, deltaY]
      field_simp
      ring
    · simp only [projDelta, deltaX, deltaY]
      have e1 : (ball.velX - ((ball.velX - neighbor.velX) * (neighbor.x - ball.x) +
            (ball.velY - neighbor.velY) * (neighbor.y - ball.y)) * (1 + 24 / 25) *
            (neighbor.x - ball.x) / (2 * ((neighbor.x - ball.x) * (neighbor.x - ball.x) +
              (neighbor.y - ball.y) * (neighbor.y - ball.y)))) * (neighbor.x - ball.x) +
          (ball.velY - ((ball.velX - neighbor.velX) * (neighbor.x - ball.x) +
            (ball.velY - neighbor.velY) * (neighbor.y - ball.y)) * (1 + 24 / 25) *
            (neighbor.y - ball.y) / (2 * ((neighbor.x - ball.x) * (neighbor.x - ball.x) +
              (neighbor.y - ball.y) * (neighbor.y - ball.y)))) * (neighbor.y - ball.y) =
          (ball.velX * (neighbor.x - ball.x) + ball.velY * (neighbor.y - ball.y)) -
            ((ball.velX * (neighbor.x - ball.x) + ball.velY * (neighbor.y - ball.y)) -
              (neighbor.velX * (neighbor.x - ball.x) + neighbor.velY * (neighbor.y - ball.y))) *
              (1 + 24 / 25) / 2 := by
        field_simp
        ring
      have e2 : (neighbor.velX + ((ball.velX - neighbor.velX) * (neighbor.x - ball.x) +
            (ball.velY - neighbor.velY) * (neighbor.y - ball.y)) * (1 + 24 / 25) *
            (neighbor.x - ball.x) / (2 * ((neighbor.x - ball.x) * (neighbor.x - ball.x) +
              (neighbor.y - ball.y) * (neighbor.y - ball.y)))) * (neighbor.x - ball.x) +
          (neighbor.velY + ((ball.velX - neighbor.velX) * (neighbor.x - ball.x) +
            (ball.velY - neighbor.velY) * (neighbor.y - ball.y)) * (1 + 24 / 25) *
            (neighbor.y - ball.y) / (2 * ((neighbor.x - ball.x) * (neighbor.x - ball.x) +
              (neighbor.y - ball.y) * (neighbor.y - ball.y)))) * (neighbor.y - ball.y) =
          (neighbor.velX * (neighbor.x - ball.x) + neighbor.velY * (neighbor.y - ball.y)) +
            ((ball.velX * (neighbor.x - ball.x) + ball.velY * (neighbor.y - ball.y)) -
              (neighbor.velX * (neighbor.x - ball.x) + neighbor.velY * (neighbor.y - ball.y))) *
              (1 + 24 / 25) / 2 := by
        field_simp
        ring
      rw [e1, e2]
      apply abs_energy_aux _ _ _ (by norm_num) (by norm_num)
      have hv' : (ball.velX * (neighbor.x - ball.x) + ball.velY * (neighbor.y - ball.y)) -
          (neighbor.velX * (neighbor.x - ball.x) + neighbor.velY * (neighbor.y - ball.y)) =
          (ball.velX - neighbor.velX) * (neighbor.x - ball.x) +
            (ball.velY - neighbor.velY) * (neighbor.y - ball.y) := by ring
      rw [hv']
      linarith
  · intro hvneg
    rw [if_pos hvneg]
    exact ⟨rfl, rfl⟩

/-- Witness for C7: two radius-20 balls 30 apart along the x-axis, the
first moving toward the second at speed 2 — overlap and approach hold and
the resolved projections satisfy both claimed relations. -/
theorem collide_ball_velocity_resolution_witness :
    relVelDotDelta
        (collide_with_ball_vel { create_ball 0 0 1 with velX := 2 } (create_ball 30 0 2)).1
        (collide_with_ball_vel { create_ball 0 0 1 with velX := 2 } (create_ball 30 0 2)).2 =
      -(24 / 25) * relVelDotDelta { create_ball 0 0 1 with velX := 2 } (create_ball 30 0 2) ∧
    |projDelta (collide_with_ball_vel { create_ball 0 0 1 with velX := 2 } (create_ball 30 0 2)).1
        { create_ball 0 0 1 with velX := 2 } (create_ball 30 0 2)| +
      |projDelta (collide_with_ball_vel { create_ball 0 0 1 with velX := 2 } (create_ball 30 0 2)).2
        { create_ball 0 0 1 with velX := 2 } (create_ball 30 0 2)| ≤
      |projDelta { create_ball 0 0 1 with velX := 2 } { create_ball 0 0 1 with velX := 2 } (create_ball 30 0 2)| +
      |projDelta (create_ball 30 0 2) { create_ball 0 0 1 with velX := 2 } (create_ball 30 0 2)| :=
  (collide_ball_velocity_resolution { create_ball 0 0 1 with velX := 2 } (create_ball 30 0 2)
      (by norm_num [create_ball])
      (by norm_num [create_ball, deltaX, deltaY, BALL_RADIUS])).1
    (by norm_num [create_ball, relVelDotDelta, deltaX, deltaY])

/-- C1: the claim fails on this code — the main loop's physics calls are
not well-formed with respect to the callees' declared parameters.
`apply_physics` is called with three positional arguments against two
declared parameters, and `check_all_collisions` with seven against six, so
the first frame of a started game raises `TypeError` instead of completing
(nothing catches it, which terminates the process without a user quit). -/
theorem main_loop_call_arity_bug :
    ¬ pythonCallWellFormed apply_physics_params apply_physics_args_main ∧
      ¬ pythonCallWellFormed check_all_collisions_params
        check_all_collisions_args_main := by
  unfold pythonCallWellFormed
  constructor <;> decide

/-- C10: in every reachable live ball list of a started game the list is
nonempty and its head is the cue ball (number 0): the rack setup puts the
cue ball first, `check_pockets` keeps the (possibly respawned) cue ball in
place, the center respawn appends at the end, and in-place updates keep
numbers, so the main loop's read of index 0 as the cue ball is valid. -/
theorem cue_ball_head_invariant (bs : List (Ball ℚ)) (h : ReachBalls bs) :
    ∃ b, bs.head? = some b ∧ b.number = 0 := by
  induction h with
  | init =>
    exact ⟨create_ball ((TABLE_X + Int.fdiv TABLE_W 4 : ℤ) : ℚ)
      ((TABLE_Y + Int.fdiv TABLE_H 2 : ℤ) : ℚ) 0, rfl, rfl⟩
  | pockets hr ih =>
    rename_i bs'
    rcases ih with ⟨b, hh, hnum⟩
    cases bs' with
    | nil => simp at hh
    | cons b0 rest =>
      have hb0 : b0 = b := by simpa using hh
      rw [← hb0] at hnum
      by_cases hcap :
          pocketCaptured b0 TABLE_X TABLE_Y TABLE_W TABLE_H CUSHION_SIZE = true
      · refine ⟨respawnCue b0 TABLE_X TABLE_Y TABLE_W TABLE_H, ?_, hnum⟩
        simp [check_pockets, List.filterMap_cons, hcap, hnum]
      · refine ⟨b0, ?_, hnum⟩
        simp [check_pockets, List.filterMap_cons, hcap]
  | respawn n hn hr ih =>
    rename_i bs'
    rcases ih with ⟨b, hh, hnum⟩
    cases bs' with
    | nil => simp at hh
    | cons b0 rest =>
      exact ⟨b, by simpa using hh, hnum⟩
  | update f hf hr ih =>
    rename_i bs'
    rcases ih with ⟨b, hh, hnum⟩
    cases bs' with
    | nil => simp at hh
    | cons b0 rest =>
      have hb0 : b0 = b := by simpa using hh
      rw [← hb0] at hnum
      exact ⟨f b0, by simp, by rw [hf]; exact hnum⟩

/-- Witness for C10: immediately after `setup_rack` the head of the live
list exists and is the cue ball. -/
theorem cue_ball_head_invariant_witness :
    ∃ b, setup_rack.head? = some b ∧ b.number = 0 :=
  cue_ball_head_invariant setup_rack ReachBalls.init

theorem ballHitT_tie_eval :
    ballHitT aimCueBall.x aimCueBall.y aimCueBall.radius 1 0 aimTargetBall =
      some 100 := by
  rw [ballHitT, if_neg (by simp [aimTargetBall])]
  simp only [aimTargetBall, aimCueBall]
  norm_num

theorem aimFold_tie_eval :
    aimFold aimCueBall.x aimCueBall.y aimCueBall.radius 1 0 [aimTargetBall]
      none = some (100, aimTargetBall) := by
  rw [aimFold, ballHitT_tie_eval]
  simp only [aimFold]
  norm_num

theorem tWall_tie_eval :
    optMin
      (tWallAxis aimCueBall.x 1 ((0 : ℝ) + 60 + aimCueBall.radius)
        ((0 : ℝ) + 180 - 60 - aimCueBall.radius))
      (tWallAxis aimCueBall.y 0 ((0 : ℝ) + 60 + aimCueBall.radius)
        ((0 : ℝ) + 1000 - 60 - aimCueBall.radius)) = some 100 := by
  rw [tWallAxis, tWallAxis, if_pos (by norm_num : (0 : ℝ) < 1),
    if_neg (by norm_num : ¬ (0 : ℝ) < 0), if_neg (by norm_num : ¬ (0 : ℝ) < 0)]
  simp only [optMin, aimCueBall]
  norm_num

/-- C9 (amended): with both a struck ball and a cushion candidate, the
reported impact parameter is the minimum of the two, but the cushion is
reported (no struck ball, no deflection geometry) exactly when the cushion
distance is strictly smaller — an exact tie reports the struck ball; when
no ball is intersected the cushion impact is reported. -/
theorem aim_first_impact_choice (cue : Ball ℝ) (balls : List (Ball ℝ))
    (ux uy tx ty tw th cushion : ℝ) (t w : ℝ) (b : Ball ℝ) :
    (aimFold cue.x cue.y cue.radius ux uy balls none = some (t, b) →
      optMin
          (tWallAxis cue.x ux (tx + cushion + cue.radius)
            (tx + tw - cushion - cue.radius))
          (tWallAxis cue.y uy (ty + cushion + cue.radius)
            (ty + th - cushion - cue.radius)) = some w →
      (aimImpact cue balls ux uy tx ty tw th cushion).1 = some (min w t) ∧
        (aimImpact cue balls ux uy tx ty tw th cushion).2 =
          (if w < t then none else some b)) ∧
    (aimFold cue.x cue.y cue.radius ux uy balls none = none →
      optMin
          (tWallAxis cue.x ux (tx + cushion + cue.radius)
            (tx + tw - cushion - cue.radius))
          (tWallAxis cue.y uy (ty + cushion + cue.radius)
            (ty + th - cushion - cue.radius)) = some w →
      aimImpact cue balls ux uy tx ty tw th cushion = (some w, none)) := by
  constructor
  · intro hmb hwall
    simp only [aimImpact, hmb, hwall]
    by_cases hw : w < t
    · rw [if_pos hw, if_pos hw, min_eq_left hw.le]
      exact ⟨rfl, rfl⟩
    · rw [if_neg hw, if_neg hw, min_eq_right (not_lt.mp hw)]
      exact ⟨rfl, rfl⟩
  · intro hmb hwall
    simp only [aimImpact, hmb, hwall]

/-- C9 counterexample: with the aim along `+x`, a target ball grazed at
parameter 100 and the right cushion also at parameter 100 (an exact tie),
the predictor reports the struck ball, not the cushion; the mouse wrapper
with the non-degenerate mouse position `(-5, 0)` evaluates to the same
selection. -/
theorem aim_tie_reports_ball :
    aimFold aimCueBall.x aimCueBall.y aimCueBall.radius 1 0 [aimTargetBall]
        none = some (100, aimTargetBall) ∧
      optMin
        (tWallAxis aimCueBall.x 1 ((0 : ℝ) + 60 + aimCueBall.radius)
          ((0 : ℝ) + 180 - 60 - aimCueBall.radius))
        (tWallAxis aimCueBall.y 0 ((0 : ℝ) + 60 + aimCueBall.radius)
          ((0 : ℝ) + 1000 - 60 - aimCueBall.radius)) = some 100 ∧
      (aimImpact aimCueBall [aimTargetBall] 1 0 0 0 180 1000 60).2 =
        some aimTargetBall ∧
      draw_aiming_line_impact aimCueBall [aimTargetBall] (-5) 0 0 0 180 1000 60 =
        some (aimImpact aimCueBall [aimTargetBall] 1 0 0 0 180 1000 60) := by
  refine ⟨aimFold_tie_eval, tWall_tie_eval, ?_, ?_⟩
  · simp only [aimImpact, aimFold_tie_eval, tWall_tie_eval]
    norm_num
  · rw [draw_aiming_line_impact]
    have hs : Real.sqrt ((aimCueBall.x - -5) ^ 2 + (aimCueBall.y - 0) ^ 2) = 5 := by
      simp only [aimCueBall]
      rw [show ((0 : ℝ) - -5) ^ 2 + ((0 : ℝ) - 0) ^ 2 = 5 ^ 2 by norm_num]
      exact Real.sqrt_sq (by norm_num)
    rw [hs, if_neg (by norm_num)]
    simp only [aimCueBall]
    norm_num


/-- Witness for C9 (amended): the tie configuration instantiates the
choice rule — the reported parameter is the (degenerate) minimum and the
else branch of the strict comparison reports the ball. -/
theorem aim_first_impact_choice_witness :
    (aimImpact aimCueBall [aimTargetBall] 1 0 0 0 180 1000 60).1 =
      some (min 100 100) ∧
      (aimImpact aimCueBall [aimTargetBall] 1 0 0 0 180 1000 60).2 =
        (if (100 : ℝ) < 100 then none else some aimTargetBall) :=
  (aim_first_impact_choice aimCueBall [aimTargetBall] 1 0 0 0 180 1000 60
      100 100 aimTargetBall).1 aimFold_tie_eval tWall_tie_eval
